import Mathlib

/-!
Shallow embedding of the layered configuration resolution engine in
`src/http_protocol/config.c` of NoahMacRitchie/http-server.

C strings are modelled as `List Char` (the characters before the
terminating NUL).  The external world — the libconfig parse of the
configuration file, `getenv`, the `stat`-based directory check and the
argument vector — is injected as explicit data, so every loader becomes a
pure total function on the configuration record, exactly mirroring the C
control flow.  The repository also carries a divergent, older duplicate of
the pipeline in `src/unnamed/part_000`; per the design notes the stricter
`http_protocol/config.c` variant is the target design and is the one
embedded here.
-/

namespace HttpConfig

/-- Modelled from the spec: `MAX_PORT` is defined in `config.h`, which is
not among the sources.  The spec requires `0 ≤ port ≤ MAX_PORT` and its
invalid-value examples reject `port = 99999` while accepting port 80, so
the standard maximum TCP port 65535 is used. -/
def MAX_PORT : Int := 65535

/-- `#define DEFAULT_PORT 80` (config.c:10). -/
def DEFAULT_PORT : Int := 80

/-- `#define DEFAULT_MODE 't'` (config.c:11). -/
def DEFAULT_MODE : Char := 't'

/-- `#define DEFAULT_ROOT_DIR "../server_directory"` (config.c:12). -/
def DEFAULT_ROOT_DIR : List Char := "../server_directory".data

/-- `#define DEFAULT_INDEX_PAGE "/index.html"` (config.c:13). -/
def DEFAULT_INDEX_PAGE : List Char := "/index.html".data

/-- `#define DEFAULT_NOT_FOUND_PAGE "/404.html"` (config.c:14). -/
def DEFAULT_NOT_FOUND_PAGE : List Char := "/404.html".data

/-- The configuration record (`config` in `config.h`). -/
structure Config where
  port : Int
  mode : Char
  root_dir : List Char
  index_page : List Char
  not_found_page : List Char
deriving DecidableEq

/-- `is_valid_port` (config.c:44): `port >= 0 && port <= MAX_PORT`. -/
def is_valid_port (port : Int) : Bool :=
  decide (0 ≤ port) && decide (port ≤ MAX_PORT)

/-- `is_valid_mode` (config.c:54): `*mode == 'p' || *mode == 't'`.
Only the first character of the C string is inspected; for the empty
string this reads the terminating NUL. -/
def is_valid_mode (mode : List Char) : Bool :=
  mode.headD '\x00' == 'p' || mode.headD '\x00' == 't'

/-- ASCII `tolower` from ctype in the default C locale (used at
config.c:115/153/210 on the accepted mode character). -/
def tolowerC (c : Char) : Char :=
  if 'A' ≤ c ∧ c ≤ 'Z' then Char.ofNat (c.toNat + 32) else c

/-- The whitespace class `isspace` skipped by `strtoul`. -/
def isSpaceC (c : Char) : Bool :=
  c == ' ' || c == '\t' || c == '\n' || c == '\x0b' || c == '\x0c' || c == '\r'

/-- Value of a character as a digit in the given base, if any. -/
def digitVal? (base : Nat) (c : Char) : Option Nat :=
  let v : Option Nat :=
    if '0' ≤ c ∧ c ≤ '9' then some (c.toNat - '0'.toNat)
    else if 'a' ≤ c ∧ c ≤ 'z' then some (c.toNat - 'a'.toNat + 10)
    else if 'A' ≤ c ∧ c ≤ 'Z' then some (c.toNat - 'A'.toNat + 10)
    else none
  match v with
  | some d => if d < base then some d else none
  | none => none

/-- Consume the maximal run of digits of the given base, accumulating the
value; returns the value and the unconsumed rest. -/
def parseDigits (base : Nat) : Nat → List Char → Nat × List Char
  | acc, [] => (acc, [])
  | acc, c :: cs =>
    match digitVal? base c with
    | some d => parseDigits base (acc * base + d) cs
    | none => (acc, c :: cs)

def ULONG_MAX : Nat := 2 ^ 64 - 1

/-- `strtoul(s, &endptr, 0)` on a 64-bit `unsigned long`: skips leading
whitespace, takes an optional sign, detects the base (`0x`/`0X` hex,
leading `0` octal, decimal otherwise), consumes the maximal digit run and
returns the value together with the rest of the string at `endptr`.  On
range overflow the result saturates at `ULONG_MAX`; a minus sign negates
the value in the unsigned type; if no digits are consumed `endptr` is the
whole original string and the value is 0. -/
def strtoul0 (s : List Char) : Nat × List Char :=
  let s1 := s.dropWhile isSpaceC
  let signed :=
    match s1 with
    | '-' :: r => (true, r)
    | '+' :: r => (false, r)
    | _ => (false, s1)
  let neg := signed.1
  let s2 := signed.2
  let finish := fun (m : Nat) (rest : List Char) =>
    let v := if m > ULONG_MAX then ULONG_MAX
             else if neg then (2 ^ 64 - m % 2 ^ 64) % 2 ^ 64 else m
    (v, rest)
  match s2 with
  | '0' :: x :: r =>
    if (x == 'x' || x == 'X') && (digitVal? 16 (r.headD '\x00')).isSome then
      let p := parseDigits 16 0 r
      finish p.1 p.2
    else
      let p := parseDigits 8 0 ('0' :: x :: r)
      finish p.1 p.2
  | ['0'] => finish 0 []
  | _ =>
    if (digitVal? 10 (s2.headD '\x00')).isSome then
      let p := parseDigits 10 0 s2
      finish p.1 p.2
    else (0, s)

/-- The C cast `(int)` applied to the `unsigned long` result of `strtoul`
(config.c:144/200): truncation to 32 bits, reinterpreted as signed. -/
def toInt32 (v : Nat) : Int :=
  let r : Nat := v % 2 ^ 32
  if r < 2 ^ 31 then (r : Int) else (r : Int) - 2 ^ 32

/-- The duplicated port-from-string block of `set_env_config`
(config.c:142-150) and `set_cmd_line_config` (config.c:198-207):
`int port = (int) strtoul(s, &ptr, 0); if (is_valid_port(port)) {
if (*s != '\0' && *ptr == '\0') { cfg->port = port; } }`. -/
def portFromString (s : List Char) (cfg : Config) : Config :=
  if is_valid_port (toInt32 (strtoul0 s).1) then
    if s ≠ [] ∧ (strtoul0 s).2 = [] then { cfg with port := toInt32 (strtoul0 s).1 }
    else cfg
  else cfg

/-- The mode update shared by all three loaders (config.c:113-117,
151-155, 208-212): `if (is_valid_mode(s)) cfg->mode = tolower(s[0]);`. -/
def modeFromString (s : List Char) (cfg : Config) : Config :=
  if is_valid_mode s then { cfg with mode := tolowerC (s.headD '\x00') } else cfg

/-- The root-directory update shared by all three loaders
(config.c:118-123, 156-161, 213-218), with the `stat`-based
`is_valid_directory` (config.c:63) injected as the capability `dirOk`;
the `free`/`strdup` pair is value-level here (the allocation-instrumented
variant appears further below). -/
def rootFromString (dirOk : List Char → Bool) (s : List Char) (cfg : Config) : Config :=
  if dirOk s then { cfg with root_dir := s } else cfg

/-- `set_default_config` (config.c:84-90). -/
def set_default_config : Config :=
  { port := DEFAULT_PORT, mode := DEFAULT_MODE, root_dir := DEFAULT_ROOT_DIR,
    index_page := DEFAULT_INDEX_PAGE, not_found_page := DEFAULT_NOT_FOUND_PAGE }

/-- Result of a successful libconfig parse: the outcome of the five
`config_lookup_int` / `config_lookup_string` calls (config.c:108-131),
`some` when the key is present with a value of the looked-up type. -/
structure FileData where
  port : Option Int
  mode : Option (List Char)
  root_dir : Option (List Char)
  index_page : Option (List Char)
  not_found_page : Option (List Char)
deriving DecidableEq

/-- A failed `config_read_file`: the data behind `config_error_file`,
`config_error_line` and `config_error_text` (config.c:101). -/
structure FileError where
  file : List Char
  line : Int
  msg : List Char
deriving DecidableEq

/-- Outcome of `config_read_file(&lib_config, CONFIG_PATH)` (config.c:100):
either the parse error of a missing/malformed file, or the parsed data. -/
inductive FileResult where
  | error : FileError → FileResult
  | ok : FileData → FileResult
deriving DecidableEq

/-- Observable outcome of `set_file_config`: the mutated record, the lines
written to the diagnostic stream, and whether `config_destroy` released
the parser (config.c:102 on the error path, config.c:133 on success). -/
structure FileOut where
  cfg : Config
  diags : List (List Char)
  parserDestroyed : Bool
deriving DecidableEq

/-- The diagnostic `fprintf(stderr, "%s:%d - %s\n", file, line, msg)`
written on a failed parse (config.c:101). -/
def fileErrorDiag (e : FileError) : List Char :=
  e.file ++ ':' :: (toString e.line).data ++ ' ' :: '-' :: ' ' :: (e.msg ++ ['\n'])

/-- Apply an update for a key only when the lookup succeeded. -/
def onSome (o : Option α) (f : α → Config → Config) (cfg : Config) : Config :=
  match o with
  | some a => f a cfg
  | none => cfg

/-- The file-layer port update (config.c:108-112): the key value is
already an `int`, guarded by `is_valid_port` alone. -/
def filePortSet (p : Int) (cfg : Config) : Config :=
  if is_valid_port p then { cfg with port := p } else cfg

def setIndexPage (s : List Char) (cfg : Config) : Config :=
  { cfg with index_page := s }

def setNotFoundPage (s : List Char) (cfg : Config) : Config :=
  { cfg with not_found_page := s }

/-- `set_file_config` (config.c:96-134).  On a failed parse it reports
`<file>:<line> - <message>`, destroys the parser and leaves the record
untouched; on success the five keys are looked up independently and each
present, valid value overrides the record in place. -/
def set_file_config (fr : FileResult) (dirOk : List Char → Bool) (cfg : Config) : FileOut :=
  match fr with
  | .error e => ⟨cfg, [fileErrorDiag e], true⟩
  | .ok d =>
    let cfg := onSome d.port filePortSet cfg
    let cfg := onSome d.mode modeFromString cfg
    let cfg := onSome d.root_dir (rootFromString dirOk) cfg
    let cfg := onSome d.index_page setIndexPage cfg
    let cfg := onSome d.not_found_page setNotFoundPage cfg
    ⟨cfg, [], true⟩

/-- The five `getenv` results used by `set_env_config` (config.c:140-170):
`DC_HTTP_PORT`, `DC_HTTP_MODE`, `DC_HTTP_ROOT_DIR`, `DC_HTTP_INDEX_PAGE`,
`DC_HTTP_NOT_FOUND_PAGE`; `some` when the variable is set. -/
structure EnvData where
  port : Option (List Char)
  mode : Option (List Char)
  root_dir : Option (List Char)
  index_page : Option (List Char)
  not_found_page : Option (List Char)
deriving DecidableEq

/-- `set_env_config` (config.c:140-170). -/
def set_env_config (env : EnvData) (dirOk : List Char → Bool) (cfg : Config) : Config :=
  let cfg := onSome env.port portFromString cfg
  let cfg := onSome env.mode modeFromString cfg
  let cfg := onSome env.root_dir (rootFromString dirOk) cfg
  let cfg := onSome env.index_page setIndexPage cfg
  onSome env.not_found_page setNotFoundPage cfg

/-- The long-option table of `set_cmd_line_config` (config.c:184-190):
maps a long-option name to its `val` character.  All five entries are
declared `optional_argument`. -/
def optChar? (name : List Char) : Option Char :=
  if name = ['p', 'o', 'r', 't'] then some 'p'
  else if name = ['m', 'o', 'd', 'e'] then some 'm'
  else if name = ['r', 'o', 'o', 't', '-', 'd', 'i', 'r'] then some 'r'
  else if name = ['i', 'n', 'd', 'e', 'x', '-', 'p', 'a', 'g', 'e'] then some 'i'
  else if name = ['n', 'o', 't', '-', 'f', 'o', 'u', 'n', 'd', '-', 'p', 'a', 'g', 'e'] then some 'n'
  else none

/-- Split a long-option body at the first `=`: the name, and the attached
argument when an `=` is present (`getopt_long` sets `optarg` for an
`optional_argument` long option only from an attached `=value`). -/
def splitAtEq : List Char → List Char × Option (List Char)
  | [] => ([], none)
  | c :: r =>
    if c = '=' then ([], some r)
    else
      let p := splitAtEq r
      (c :: p.1, p.2)

/-- The sequence of `(opt, optarg)` pairs the `getopt_long` loop of
`set_cmd_line_config` (config.c:192-196) delivers with a non-NULL
`optarg`, in order.  A bare `--` ends option scanning; tokens that are
not long options (non-options and unmatched short options) produce no
`optarg`; a recognized long option without an attached `=value` leaves
`optarg == NULL` and is skipped by the `continue` (config.c:193-195), as
is an unknown long option via the `default` branch. -/
def parseTokens : List (List Char) → List (Char × List Char)
  | [] => []
  | tok :: rest =>
    if tok.take 2 = ['-', '-'] then
      if tok.drop 2 = [] then []
      else
        let p := splitAtEq (tok.drop 2)
        match optChar? p.1, p.2 with
        | some c, some v => (c, v) :: parseTokens rest
        | some _, none => parseTokens rest
        | none, _ => parseTokens rest
    else parseTokens rest

/-- The `switch (opt)` body of `set_cmd_line_config` (config.c:197-229),
for one delivered option with its attached `optarg`. -/
def applyOpt (dirOk : List Char → Bool) (cfg : Config) (o : Char × List Char) : Config :=
  if o.1 = 'p' then portFromString o.2 cfg
  else if o.1 = 'm' then modeFromString o.2 cfg
  else if o.1 = 'r' then rootFromString dirOk o.2 cfg
  else if o.1 = 'i' then setIndexPage o.2 cfg
  else if o.1 = 'n' then setNotFoundPage o.2 cfg
  else cfg

/-- `set_cmd_line_config` (config.c:180-231) with the global `optind` made
an explicit state: the incoming value is the global's value at call time;
the function begins with `optind = 1` (config.c:181) and scans the
argument vector from that index, and `getopt_long` leaves `optind` at
`argc` once it returns -1. -/
def set_cmd_line_configO (optindIn : Nat) (dirOk : List Char → Bool)
    (argv : List (List Char)) (cfg : Config) : Config × Nat :=
  let optindReset := 1
  ((parseTokens (argv.drop optindReset)).foldl (applyOpt dirOk) cfg, argv.length)

/-- `set_cmd_line_config` as a record transformer (its observable effect
on the configuration). -/
def set_cmd_line_config (dirOk : List Char → Bool) (argv : List (List Char))
    (cfg : Config) : Config :=
  (set_cmd_line_configO 1 dirOk argv cfg).1

/-- The injected external world of one `get_config` call: the parse
outcome of `CONFIG_PATH`, the process environment, the `stat`-based
directory-existence capability, and the argument vector. -/
structure World where
  file : FileResult
  env : EnvData
  dirOk : List Char → Bool
  argv : List (List Char)

/-- The four loader stages of `get_config` (config.c:24-27), before
validation. -/
def resolve (w : World) : Config :=
  set_cmd_line_config w.dirOk w.argv
    (set_env_config w.env w.dirOk
      (set_file_config w.file w.dirOk set_default_config).cfg)

/-- `validate_config` (config.c:73-78): `some msg` models
`fprintf(stderr, "Root directory '%s' does not exist.\n", root_dir)`
followed by `exit(EXIT_FAILURE)`; `none` models normal return. -/
def validate_config (dirOk : List Char → Bool) (cfg : Config) : Option (List Char) :=
  if dirOk cfg.root_dir then none
  else some ("Root directory '".data ++ (cfg.root_dir ++ "' does not exist.\n".data))

/-- `get_config` (config.c:22-30): `.error msg` models termination with
`EXIT_FAILURE` after writing `msg` to stderr; `.ok cfg` models returning
the built record to the caller. -/
def get_config (w : World) : Except (List Char) Config :=
  let cfg := resolve w
  match validate_config w.dirOk cfg with
  | some msg => .error msg
  | none => .ok cfg

/-!
## Per-layer valid candidates

For each field and each layer, the value the layer effectively supplies:
`some v` exactly when the layer's candidate is present and passes that
field's validation, `none` when it is absent or invalid.  For the CLI
layer, where a field's option may occur several times, the effective
candidate is the last valid occurrence (each valid occurrence overwrites
the record in the `getopt_long` loop).
-/

/-- The env/CLI port candidate after the full `strtoul` discipline:
non-empty string, fully consumed, value (after the `(int)` cast) in
range. -/
def portCand (s : List Char) : Option Int :=
  if is_valid_port (toInt32 (strtoul0 s).1) ∧ s ≠ [] ∧ (strtoul0 s).2 = []
  then some (toInt32 (strtoul0 s).1) else none

/-- The mode candidate: accepted when the first character passes
`is_valid_mode`; the stored value is the `tolower`-ed first character. -/
def modeCand (s : List Char) : Option Char :=
  if is_valid_mode s then some (tolowerC (s.headD '\x00')) else none

/-- The root-directory candidate: accepted when `is_valid_directory`
holds. -/
def rootCand (dirOk : List Char → Bool) (s : List Char) : Option (List Char) :=
  if dirOk s then some s else none

/-- The file-layer port candidate: an `int` key value, guarded by
`is_valid_port` alone. -/
def fileIntPortCand (p : Int) : Option Int :=
  if is_valid_port p then some p else none

def fileValidPort : FileResult → Option Int
  | .error _ => none
  | .ok d => d.port.bind fileIntPortCand

def fileValidMode : FileResult → Option Char
  | .error _ => none
  | .ok d => d.mode.bind modeCand

def fileValidRoot (dirOk : List Char → Bool) : FileResult → Option (List Char)
  | .error _ => none
  | .ok d => d.root_dir.bind (rootCand dirOk)

def fileValidIndex : FileResult → Option (List Char)
  | .error _ => none
  | .ok d => d.index_page

def fileValidNotFound : FileResult → Option (List Char)
  | .error _ => none
  | .ok d => d.not_found_page

def envValidPort (e : EnvData) : Option Int := e.port.bind portCand

def envValidMode (e : EnvData) : Option Char := e.mode.bind modeCand

def envValidRoot (dirOk : List Char → Bool) (e : EnvData) : Option (List Char) :=
  e.root_dir.bind (rootCand dirOk)

def envValidIndex (e : EnvData) : Option (List Char) := e.index_page

def envValidNotFound (e : EnvData) : Option (List Char) := e.not_found_page

/-- `orD o d` is `o` when `o` is `some`, else `d`. -/
def orD (o d : Option α) : Option α :=
  match o with
  | some v => some v
  | none => d

/-- Keep the newest candidate delivered by `f`, else the accumulator. -/
def lastStep (f : Char × List Char → Option α) (acc : Option α) (o : Char × List Char) :
    Option α :=
  match f o with
  | some v => some v
  | none => acc

/-- Last `some` produced by `f` along the delivered option list. -/
def lastOpt (f : Char × List Char → Option α) (opts : List (Char × List Char)) : Option α :=
  opts.foldl (lastStep f) none

def cliPortSel (o : Char × List Char) : Option Int :=
  if o.1 = 'p' then portCand o.2 else none

def cliModeSel (o : Char × List Char) : Option Char :=
  if o.1 = 'm' then modeCand o.2 else none

def cliRootSel (dirOk : List Char → Bool) (o : Char × List Char) : Option (List Char) :=
  if o.1 = 'r' then rootCand dirOk o.2 else none

def cliIndexSel (o : Char × List Char) : Option (List Char) :=
  if o.1 = 'i' then some o.2 else none

def cliNfSel (o : Char × List Char) : Option (List Char) :=
  if o.1 = 'n' then some o.2 else none

def cliValidPort (argv : List (List Char)) : Option Int :=
  lastOpt cliPortSel (parseTokens (argv.drop 1))

def cliValidMode (argv : List (List Char)) : Option Char :=
  lastOpt cliModeSel (parseTokens (argv.drop 1))

def cliValidRoot (dirOk : List Char → Bool) (argv : List (List Char)) : Option (List Char) :=
  lastOpt (cliRootSel dirOk) (parseTokens (argv.drop 1))

def cliValidIndex (argv : List (List Char)) : Option (List Char) :=
  lastOpt cliIndexSel (parseTokens (argv.drop 1))

def cliValidNotFound (argv : List (List Char)) : Option (List Char) :=
  lastOpt cliNfSel (parseTokens (argv.drop 1))

/-!
## Well-formedness of the record's validated fields
-/

/-- The spec's constraints on the two non-text fields:
`0 ≤ port ≤ MAX_PORT` and `mode ∈ \x7b'p', 't'\x7d`. -/
def WF (cfg : Config) : Prop :=
  0 ≤ cfg.port ∧ cfg.port ≤ MAX_PORT ∧ (cfg.mode = 'p' ∨ cfg.mode = 't')

instance (cfg : Config) : Decidable (WF cfg) := by
  unfold WF; infer_instance

/-!
## The external editor's mutation interface

Modelled from the spec: the interactive ncurses editor's form/menu
internals are not among the sources (only `src/ncurses/ncurses.c`, which
drives the missing `ncurses_form`/`ncurses_menu`/`ncurses_panel`
modules).  Spec §6 states the editor mutates each field through an
operation applying the *same* validation rule as the corresponding
loader, rejecting and keeping the previous value on invalid input; the
setters below therefore reuse the loaders' own update primitives.
-/

/-- Modelled from the spec: editor port mutation, same rule as the
environment/CLI port path. -/
def editor_set_port (s : List Char) (cfg : Config) : Config :=
  portFromString s cfg

/-- Modelled from the spec: editor mode mutation, same rule as the
loaders' mode path. -/
def editor_set_mode (s : List Char) (cfg : Config) : Config :=
  modeFromString s cfg

/-- Modelled from the spec: editor root-directory mutation, same
directory-existence rule as the loaders. -/
def editor_set_root_dir (dirOk : List Char → Bool) (s : List Char) (cfg : Config) : Config :=
  rootFromString dirOk s cfg

/-- Modelled from the spec: editor index-page mutation, unconditional
like the loaders. -/
def editor_set_index_page (s : List Char) (cfg : Config) : Config :=
  setIndexPage s cfg

/-- Modelled from the spec: editor not-found-page mutation, unconditional
like the loaders. -/
def editor_set_not_found_page (s : List Char) (cfg : Config) : Config :=
  setNotFoundPage s cfg

/-- `get_config` with the global `optind` threaded through explicitly:
the incoming value is whatever a previous `getopt` scan in the process
left behind. -/
def get_configO (optindIn : Nat) (w : World) : Except (List Char) Config × Nat :=
  let cfg := (set_file_config w.file w.dirOk set_default_config).cfg
  let cfg := set_env_config w.env w.dirOk cfg
  let p := set_cmd_line_configO optindIn w.dirOk w.argv cfg
  (match validate_config w.dirOk p.1 with
   | some msg => .error msg
   | none => .ok p.1, p.2)

/-!
## Allocation-instrumented model (text-field ownership)

The same `config.c` functions, with the `strdup`/`free` calls on the
three `char *` fields made explicit: each owned string carries the id of
its allocation, and a heap records the multiset of ids ever allocated and
ever passed to `free`.  Everything else (control flow, validation) is
identical to the value-level model above.
-/

/-- An owned C string: allocation id plus contents. -/
structure Own where
  id : Nat
  val : List Char
deriving DecidableEq

/-- The configuration record with owned text fields. -/
structure OCfg where
  port : Int
  mode : Char
  root_dir : Own
  index_page : Own
  not_found_page : Own
deriving DecidableEq

/-- Allocation state: next fresh id, all ids ever returned by an
allocation, and all ids ever passed to `free` (multisets, so a double
`free` would show up as a duplicate). -/
structure Heap where
  next : Nat
  allocated : Multiset Nat
  freed : Multiset Nat
deriving DecidableEq

def emptyHeap : Heap := ⟨0, 0, 0⟩

/-- `strdup`: a fresh allocation holding a copy of the string. -/
def strdupH (s : List Char) (h : Heap) : Own × Heap :=
  (⟨h.next, s⟩, ⟨h.next + 1, h.next ::ₘ h.allocated, h.freed⟩)

/-- `free` of an owned string. -/
def freeH (o : Own) (h : Heap) : Heap :=
  ⟨h.next, h.allocated, o.id ::ₘ h.freed⟩

/-- `free(cfg->field); cfg->field = strdup(s);` — the override pattern of
all three loaders (e.g. config.c:120-121). -/
def replaceOwned (old : Own) (s : List Char) (h : Heap) : Own × Heap :=
  strdupH s (freeH old h)

/-- `set_default_config` (config.c:84-90) with its three `strdup`s. -/
def set_default_configH (h : Heap) : OCfg × Heap :=
  let r := strdupH DEFAULT_ROOT_DIR h
  let i := strdupH DEFAULT_INDEX_PAGE r.2
  let n := strdupH DEFAULT_NOT_FOUND_PAGE i.2
  (⟨DEFAULT_PORT, DEFAULT_MODE, r.1, i.1, n.1⟩, n.2)

def portFromStringH (s : List Char) (cfg : OCfg) : OCfg :=
  if is_valid_port (toInt32 (strtoul0 s).1) then
    if s ≠ [] ∧ (strtoul0 s).2 = [] then { cfg with port := toInt32 (strtoul0 s).1 }
    else cfg
  else cfg

def modeFromStringH (s : List Char) (cfg : OCfg) : OCfg :=
  if is_valid_mode s then { cfg with mode := tolowerC (s.headD '\x00') } else cfg

def filePortSetH (p : Int) (cfg : OCfg) : OCfg :=
  if is_valid_port p then { cfg with port := p } else cfg

def rootFromStringH (dirOk : List Char → Bool) (s : List Char) (cfg : OCfg) (h : Heap) :
    OCfg × Heap :=
  if dirOk s then
    let p := replaceOwned cfg.root_dir s h
    ({ cfg with root_dir := p.1 }, p.2)
  else (cfg, h)

def setIndexPageH (s : List Char) (cfg : OCfg) (h : Heap) : OCfg × Heap :=
  let p := replaceOwned cfg.index_page s h
  ({ cfg with index_page := p.1 }, p.2)

def setNotFoundPageH (s : List Char) (cfg : OCfg) (h : Heap) : OCfg × Heap :=
  let p := replaceOwned cfg.not_found_page s h
  ({ cfg with not_found_page := p.1 }, p.2)

/-- Heap-passing analogue of `onSome`. -/
def onSomeH (o : Option α) (f : α → OCfg → Heap → OCfg × Heap) (cfg : OCfg) (h : Heap) :
    OCfg × Heap :=
  match o with
  | some a => f a cfg h
  | none => (cfg, h)

/-- `set_file_config` (config.c:96-134), allocation-instrumented. -/
def set_file_configH (fr : FileResult) (dirOk : List Char → Bool) (cfg : OCfg) (h : Heap) :
    OCfg × Heap :=
  match fr with
  | .error _ => (cfg, h)
  | .ok d =>
    let c1 := onSomeH d.port (fun p c hh => (filePortSetH p c, hh)) cfg h
    let c2 := onSomeH d.mode (fun s c hh => (modeFromStringH s c, hh)) c1.1 c1.2
    let c3 := onSomeH d.root_dir (rootFromStringH dirOk) c2.1 c2.2
    let c4 := onSomeH d.index_page setIndexPageH c3.1 c3.2
    onSomeH d.not_found_page setNotFoundPageH c4.1 c4.2

/-- `set_env_config` (config.c:140-170), allocation-instrumented. -/
def set_env_configH (env : EnvData) (dirOk : List Char → Bool) (cfg : OCfg) (h : Heap) :
    OCfg × Heap :=
  let c1 := onSomeH env.port (fun s c hh => (portFromStringH s c, hh)) cfg h
  let c2 := onSomeH env.mode (fun s c hh => (modeFromStringH s c, hh)) c1.1 c1.2
  let c3 := onSomeH env.root_dir (rootFromStringH dirOk) c2.1 c2.2
  let c4 := onSomeH env.index_page setIndexPageH c3.1 c3.2
  onSomeH env.not_found_page setNotFoundPageH c4.1 c4.2

/-- The `switch` body of `set_cmd_line_config`, allocation-instrumented. -/
def applyOptH (dirOk : List Char → Bool) (p : OCfg × Heap) (o : Char × List Char) :
    OCfg × Heap :=
  if o.1 = 'p' then (portFromStringH o.2 p.1, p.2)
  else if o.1 = 'm' then (modeFromStringH o.2 p.1, p.2)
  else if o.1 = 'r' then rootFromStringH dirOk o.2 p.1 p.2
  else if o.1 = 'i' then setIndexPageH o.2 p.1 p.2
  else if o.1 = 'n' then setNotFoundPageH o.2 p.1 p.2
  else p

/-- `set_cmd_line_config` (config.c:180-231), allocation-instrumented. -/
def set_cmd_line_configH (dirOk : List Char → Bool) (argv : List (List Char)) (cfg : OCfg)
    (h : Heap) : OCfg × Heap :=
  (parseTokens (argv.drop 1)).foldl (applyOptH dirOk) (cfg, h)

/-- `destroy_config` (config.c:32-37): frees `root_dir`, then
`not_found_page`, then `index_page`. -/
def destroy_configH (cfg : OCfg) (h : Heap) : Heap :=
  freeH cfg.index_page (freeH cfg.not_found_page (freeH cfg.root_dir h))

/-- The full four-stage resolution, allocation-instrumented. -/
def resolveH (w : World) (h : Heap) : OCfg × Heap :=
  let p0 := set_default_configH h
  let p1 := set_file_configH w.file w.dirOk p0.1 p0.2
  let p2 := set_env_configH w.env w.dirOk p1.1 p1.2
  set_cmd_line_configH w.dirOk w.argv p2.1 p2.2

/-- Ownership invariant: every allocated id is below the fresh counter,
no id was ever allocated twice, and the ids ever allocated are exactly
the ids ever freed plus the three ids currently held by the text fields
(each counted once). -/
def HInv (cfg : OCfg) (h : Heap) : Prop :=
  (∀ x ∈ h.allocated, x < h.next) ∧
  h.allocated.Nodup ∧
  h.allocated = cfg.root_dir.id ::ₘ cfg.index_page.id ::ₘ cfg.not_found_page.id ::ₘ h.freed

instance (cfg : OCfg) (h : Heap) : Decidable (HInv cfg h) := by
  unfold HInv; infer_instance

/-!
## Projection lemmas: what each primitive update does to each field
-/

theorem portFromString_port (s : List Char) (cfg : Config) :
    (portFromString s cfg).port = (portCand s).getD cfg.port := by
  simp only [portFromString, portCand]
  split_ifs with h₁ h₂ h₃ <;> simp_all

theorem portFromString_mode (s : List Char) (cfg : Config) :
    (portFromString s cfg).mode = cfg.mode := by
  simp only [portFromString]; split_ifs <;> rfl

theorem portFromString_root (s : List Char) (cfg : Config) :
    (portFromString s cfg).root_dir = cfg.root_dir := by
  simp only [portFromString]; split_ifs <;> rfl

theorem portFromString_index (s : List Char) (cfg : Config) :
    (portFromString s cfg).index_page = cfg.index_page := by
  simp only [portFromString]; split_ifs <;> rfl

theorem portFromString_nf (s : List Char) (cfg : Config) :
    (portFromString s cfg).not_found_page = cfg.not_found_page := by
  simp only [portFromString]; split_ifs <;> rfl

theorem modeFromString_mode (s : List Char) (cfg : Config) :
    (modeFromString s cfg).mode = (modeCand s).getD cfg.mode := by
  simp only [modeFromString, modeCand]
  split_ifs with h <;> simp

theorem modeFromString_port (s : List Char) (cfg : Config) :
    (modeFromString s cfg).port = cfg.port := by
  simp only [modeFromString]; split_ifs <;> rfl

theorem modeFromString_root (s : List Char) (cfg : Config) :
    (modeFromString s cfg).root_dir = cfg.root_dir := by
  simp only [modeFromString]; split_ifs <;> rfl

theorem modeFromString_index (s : List Char) (cfg : Config) :
    (modeFromString s cfg).index_page = cfg.index_page := by
  simp only [modeFromString]; split_ifs <;> rfl

theorem modeFromString_nf (s : List Char) (cfg : Config) :
    (modeFromString s cfg).not_found_page = cfg.not_found_page := by
  simp only [modeFromString]; split_ifs <;> rfl

theorem rootFromString_root (dirOk : List Char → Bool) (s : List Char) (cfg : Config) :
    (rootFromString dirOk s cfg).root_dir = (rootCand dirOk s).getD cfg.root_dir := by
  simp only [rootFromString, rootCand]
  split_ifs <;> simp

theorem rootFromString_port (dirOk : List Char → Bool) (s : List Char) (cfg : Config) :
    (rootFromString dirOk s cfg).port = cfg.port := by
  simp only [rootFromString]; split_ifs <;> rfl

theorem rootFromString_mode (dirOk : List Char → Bool) (s : List Char) (cfg : Config) :
    (rootFromString dirOk s cfg).mode = cfg.mode := by
  simp only [rootFromString]; split_ifs <;> rfl

theorem rootFromString_index (dirOk : List Char → Bool) (s : List Char) (cfg : Config) :
    (rootFromString dirOk s cfg).index_page = cfg.index_page := by
  simp only [rootFromString]; split_ifs <;> rfl

theorem rootFromString_nf (dirOk : List Char → Bool) (s : List Char) (cfg : Config) :
    (rootFromString dirOk s cfg).not_found_page = cfg.not_found_page := by
  simp only [rootFromString]; split_ifs <;> rfl

theorem filePortSet_port (p : Int) (cfg : Config) :
    (filePortSet p cfg).port = (fileIntPortCand p).getD cfg.port := by
  simp only [filePortSet, fileIntPortCand]
  split_ifs <;> simp

theorem filePortSet_mode (p : Int) (cfg : Config) :
    (filePortSet p cfg).mode = cfg.mode := by
  simp only [filePortSet]; split_ifs <;> rfl

theorem filePortSet_root (p : Int) (cfg : Config) :
    (filePortSet p cfg).root_dir = cfg.root_dir := by
  simp only [filePortSet]; split_ifs <;> rfl

theorem filePortSet_index (p : Int) (cfg : Config) :
    (filePortSet p cfg).index_page = cfg.index_page := by
  simp only [filePortSet]; split_ifs <;> rfl

theorem filePortSet_nf (p : Int) (cfg : Config) :
    (filePortSet p cfg).not_found_page = cfg.not_found_page := by
  simp only [filePortSet]; split_ifs <;> rfl

/-!
## Stage-level projection lemmas
-/

theorem set_env_config_port (e : EnvData) (dirOk : List Char → Bool) (cfg : Config) :
    (set_env_config e dirOk cfg).port = (envValidPort e).getD cfg.port := by
  rcases e with ⟨p, m, r, i, n⟩
  cases p <;> cases m <;> cases r <;> cases i <;> cases n <;>
    simp [set_env_config, onSome, envValidPort, setIndexPage, setNotFoundPage,
      portFromString_port, modeFromString_port, rootFromString_port]

theorem set_env_config_mode (e : EnvData) (dirOk : List Char → Bool) (cfg : Config) :
    (set_env_config e dirOk cfg).mode = (envValidMode e).getD cfg.mode := by
  rcases e with ⟨p, m, r, i, n⟩
  cases p <;> cases m <;> cases r <;> cases i <;> cases n <;>
    simp [set_env_config, onSome, envValidMode, setIndexPage, setNotFoundPage,
      portFromString_mode, modeFromString_mode, rootFromString_mode]

theorem set_env_config_root (e : EnvData) (dirOk : List Char → Bool) (cfg : Config) :
    (set_env_config e dirOk cfg).root_dir = (envValidRoot dirOk e).getD cfg.root_dir := by
  rcases e with ⟨p, m, r, i, n⟩
  cases p <;> cases m <;> cases r <;> cases i <;> cases n <;>
    simp [set_env_config, onSome, envValidRoot, setIndexPage, setNotFoundPage,
      portFromString_root, modeFromString_root, rootFromString_root]

theorem set_env_config_index (e : EnvData) (dirOk : List Char → Bool) (cfg : Config) :
    (set_env_config e dirOk cfg).index_page = (envValidIndex e).getD cfg.index_page := by
  rcases e with ⟨p, m, r, i, n⟩
  cases p <;> cases m <;> cases r <;> cases i <;> cases n <;>
    simp [set_env_config, onSome, envValidIndex, setIndexPage, setNotFoundPage,
      portFromString_index, modeFromString_index, rootFromString_index]

theorem set_env_config_nf (e : EnvData) (dirOk : List Char → Bool) (cfg : Config) :
    (set_env_config e dirOk cfg).not_found_page = (envValidNotFound e).getD cfg.not_found_page := by
  rcases e with ⟨p, m, r, i, n⟩
  cases p <;> cases m <;> cases r <;> cases i <;> cases n <;>
    simp [set_env_config, onSome, envValidNotFound, setIndexPage, setNotFoundPage,
      portFromString_nf, modeFromString_nf, rootFromString_nf]

theorem set_file_config_port (fr : FileResult) (dirOk : List Char → Bool) (cfg : Config) :
    (set_file_config fr dirOk cfg).cfg.port = (fileValidPort fr).getD cfg.port := by
  cases fr with
  | error e => simp [set_file_config, fileValidPort]
  | ok d =>
    rcases d with ⟨p, m, r, i, n⟩
    cases p <;> cases m <;> cases r <;> cases i <;> cases n <;>
      simp [set_file_config, onSome, fileValidPort, setIndexPage, setNotFoundPage,
        filePortSet_port, modeFromString_port, rootFromString_port]

theorem set_file_config_mode (fr : FileResult) (dirOk : List Char → Bool) (cfg : Config) :
    (set_file_config fr dirOk cfg).cfg.mode = (fileValidMode fr).getD cfg.mode := by
  cases fr with
  | error e => simp [set_file_config, fileValidMode]
  | ok d =>
    rcases d with ⟨p, m, r, i, n⟩
    cases p <;> cases m <;> cases r <;> cases i <;> cases n <;>
      simp [set_file_config, onSome, fileValidMode, setIndexPage, setNotFoundPage,
        filePortSet_mode, modeFromString_mode, rootFromString_mode]

theorem set_file_config_root (fr : FileResult) (dirOk : List Char → Bool) (cfg : Config) :
    (set_file_config fr dirOk cfg).cfg.root_dir = (fileValidRoot dirOk fr).getD cfg.root_dir := by
  cases fr with
  | error e => simp [set_file_config, fileValidRoot]
  | ok d =>
    rcases d with ⟨p, m, r, i, n⟩
    cases p <;> cases m <;> cases r <;> cases i <;> cases n <;>
      simp [set_file_config, onSome, fileValidRoot, setIndexPage, setNotFoundPage,
        filePortSet_root, modeFromString_root, rootFromString_root]

theorem set_file_config_index (fr : FileResult) (dirOk : List Char → Bool) (cfg : Config) :
    (set_file_config fr dirOk cfg).cfg.index_page = (fileValidIndex fr).getD cfg.index_page := by
  cases fr with
  | error e => simp [set_file_config, fileValidIndex]
  | ok d =>
    rcases d with ⟨p, m, r, i, n⟩
    cases p <;> cases m <;> cases r <;> cases i <;> cases n <;>
      simp [set_file_config, onSome, fileValidIndex, setIndexPage, setNotFoundPage,
        filePortSet_index, modeFromString_index, rootFromString_index]

theorem set_file_config_nf (fr : FileResult) (dirOk : List Char → Bool) (cfg : Config) :
    (set_file_config fr dirOk cfg).cfg.not_found_page =
      (fileValidNotFound fr).getD cfg.not_found_page := by
  cases fr with
  | error e => simp [set_file_config, fileValidNotFound]
  | ok d =>
    rcases d with ⟨p, m, r, i, n⟩
    cases p <;> cases m <;> cases r <;> cases i <;> cases n <;>
      simp [set_file_config, onSome, fileValidNotFound, setIndexPage, setNotFoundPage,
        filePortSet_nf, modeFromString_nf, rootFromString_nf]

/-- Folding the accumulator through `lastOpt`'s step function. -/
theorem foldl_lastOpt_acc {α : Type} (f : Char × List Char → Option α) :
    ∀ (opts : List (Char × List Char)) (acc : Option α),
      opts.foldl (lastStep f) acc = orD (opts.foldl (lastStep f) none) acc := by
  intro opts
  induction opts with
  | nil => intro acc; rfl
  | cons o rest ih =>
    intro acc
    simp only [List.foldl_cons]
    cases hf : f o with
    | some v =>
      have h₁ : lastStep f acc o = some v := by simp [lastStep, hf]
      have h₂ : lastStep f none o = some v := by simp [lastStep, hf]
      rw [h₁, h₂, ih (some v)]
      cases h₃ : rest.foldl (lastStep f) none <;> simp [orD, h₃]
    | none =>
      have h₁ : lastStep f acc o = acc := by simp [lastStep, hf]
      have h₂ : lastStep f none o = none := by simp [lastStep, hf]
      rw [h₁, h₂]
      exact ih acc

/-- One step of `lastOpt`. -/
theorem lastOpt_cons {α : Type} (f : Char × List Char → Option α) (o : Char × List Char)
    (rest : List (Char × List Char)) :
    lastOpt f (o :: rest) = orD (lastOpt f rest) (f o) := by
  simp only [lastOpt, List.foldl_cons]
  cases hf : f o with
  | some v =>
    have h₂ : lastStep f none o = some v := by simp [lastStep, hf]
    rw [h₂, foldl_lastOpt_acc f rest (some v)]
  | none =>
    have h₂ : lastStep f none o = none := by simp [lastStep, hf]
    rw [h₂]
    cases h₃ : rest.foldl (lastStep f) none <;> simp [orD, h₃]

/-- Projection of the `getopt_long` fold to a single field, given how one
delivered option moves that field. -/
theorem foldl_applyOpt_proj {α : Type} (g : Config → α) (f : Char × List Char → Option α)
    (dirOk : List Char → Bool)
    (h : ∀ cfg o, g (applyOpt dirOk cfg o) = (f o).getD (g cfg)) :
    ∀ (opts : List (Char × List Char)) (cfg : Config),
      g (opts.foldl (applyOpt dirOk) cfg) = (lastOpt f opts).getD (g cfg) := by
  intro opts
  induction opts with
  | nil => intro cfg; simp [lastOpt]
  | cons o rest ih =>
    intro cfg
    simp only [List.foldl_cons]
    rw [ih, h, lastOpt_cons]
    cases hf : f o <;> cases hrest : lastOpt f rest <;> simp [hf, hrest, orD]

theorem applyOpt_port (dirOk : List Char → Bool) (cfg : Config) (o : Char × List Char) :
    (applyOpt dirOk cfg o).port = (cliPortSel o).getD cfg.port := by
  rcases o with ⟨c, v⟩
  simp only [applyOpt, cliPortSel]
  split_ifs <;>
    simp_all [portFromString_port, modeFromString_port, rootFromString_port,
      setIndexPage, setNotFoundPage]

theorem applyOpt_mode (dirOk : List Char → Bool) (cfg : Config) (o : Char × List Char) :
    (applyOpt dirOk cfg o).mode = (cliModeSel o).getD cfg.mode := by
  rcases o with ⟨c, v⟩
  simp only [applyOpt, cliModeSel]
  split_ifs <;>
    simp_all [portFromString_mode, modeFromString_mode, rootFromString_mode,
      setIndexPage, setNotFoundPage]

theorem applyOpt_root (dirOk : List Char → Bool) (cfg : Config) (o : Char × List Char) :
    (applyOpt dirOk cfg o).root_dir = (cliRootSel dirOk o).getD cfg.root_dir := by
  rcases o with ⟨c, v⟩
  simp only [applyOpt, cliRootSel]
  split_ifs <;>
    simp_all [portFromString_root, modeFromString_root, rootFromString_root,
      setIndexPage, setNotFoundPage]

theorem applyOpt_index (dirOk : List Char → Bool) (cfg : Config) (o : Char × List Char) :
    (applyOpt dirOk cfg o).index_page = (cliIndexSel o).getD cfg.index_page := by
  rcases o with ⟨c, v⟩
  simp only [applyOpt, cliIndexSel]
  split_ifs <;>
    simp_all [portFromString_index, modeFromString_index, rootFromString_index,
      setIndexPage, setNotFoundPage]

theorem applyOpt_nf (dirOk : List Char → Bool) (cfg : Config) (o : Char × List Char) :
    (applyOpt dirOk cfg o).not_found_page = (cliNfSel o).getD cfg.not_found_page := by
  rcases o with ⟨c, v⟩
  simp only [applyOpt, cliNfSel]
  split_ifs <;>
    simp_all [portFromString_nf, modeFromString_nf, rootFromString_nf,
      setIndexPage, setNotFoundPage]

theorem set_cmd_line_config_port (dirOk : List Char → Bool) (argv : List (List Char))
    (cfg : Config) :
    (set_cmd_line_config dirOk argv cfg).port = (cliValidPort argv).getD cfg.port := by
  simp only [set_cmd_line_config, set_cmd_line_configO, cliValidPort]
  exact foldl_applyOpt_proj _ _ _ (applyOpt_port dirOk) _ cfg

theorem set_cmd_line_config_mode (dirOk : List Char → Bool) (argv : List (List Char))
    (cfg : Config) :
    (set_cmd_line_config dirOk argv cfg).mode = (cliValidMode argv).getD cfg.mode := by
  simp only [set_cmd_line_config, set_cmd_line_configO, cliValidMode]
  exact foldl_applyOpt_proj _ _ _ (applyOpt_mode dirOk) _ cfg

theorem set_cmd_line_config_root (dirOk : List Char → Bool) (argv : List (List Char))
    (cfg : Config) :
    (set_cmd_line_config dirOk argv cfg).root_dir = (cliValidRoot dirOk argv).getD cfg.root_dir := by
  simp only [set_cmd_line_config, set_cmd_line_configO, cliValidRoot]
  exact foldl_applyOpt_proj _ _ _ (applyOpt_root dirOk) _ cfg

theorem set_cmd_line_config_index (dirOk : List Char → Bool) (argv : List (List Char))
    (cfg : Config) :
    (set_cmd_line_config dirOk argv cfg).index_page =
      (cliValidIndex argv).getD cfg.index_page := by
  simp only [set_cmd_line_config, set_cmd_line_configO, cliValidIndex]
  exact foldl_applyOpt_proj _ _ _ (applyOpt_index dirOk) _ cfg

theorem set_cmd_line_config_nf (dirOk : List Char → Bool) (argv : List (List Char))
    (cfg : Config) :
    (set_cmd_line_config dirOk argv cfg).not_found_page =
      (cliValidNotFound argv).getD cfg.not_found_page := by
  simp only [set_cmd_line_config, set_cmd_line_configO, cliValidNotFound]
  exact foldl_applyOpt_proj _ _ _ (applyOpt_nf dirOk) _ cfg

/-- C1.  Layer precedence with invalid fall-through: resolution applies
Default, then File, then Environment, then CLI, and for each of the five
fields the final record holds the value of the highest layer whose
candidate is present and valid (for the CLI layer, its last valid
occurrence); when a layer's candidate is absent or invalid (`portCand`,
`modeCand`, `rootCand`, `fileIntPortCand` return `none` exactly on
invalid/ill-formed candidates such as port -1 or 99999, mode "x", or a
non-existent root directory), the field falls through to the next lower
layer's valid candidate, down to the built-in default. -/
theorem claim_layer_precedence (w : World) :
    (resolve w).port =
      (cliValidPort w.argv).getD
        ((envValidPort w.env).getD ((fileValidPort w.file).getD DEFAULT_PORT)) ∧
    (resolve w).mode =
      (cliValidMode w.argv).getD
        ((envValidMode w.env).getD ((fileValidMode w.file).getD DEFAULT_MODE)) ∧
    (resolve w).root_dir =
      (cliValidRoot w.dirOk w.argv).getD
        ((envValidRoot w.dirOk w.env).getD
          ((fileValidRoot w.dirOk w.file).getD DEFAULT_ROOT_DIR)) ∧
    (resolve w).index_page =
      (cliValidIndex w.argv).getD
        ((envValidIndex w.env).getD ((fileValidIndex w.file).getD DEFAULT_INDEX_PAGE)) ∧
    (resolve w).not_found_page =
      (cliValidNotFound w.argv).getD
        ((envValidNotFound w.env).getD
          ((fileValidNotFound w.file).getD DEFAULT_NOT_FOUND_PAGE)) := by
  unfold resolve
  refine ⟨?_, ?_, ?_, ?_, ?_⟩
  · rw [set_cmd_line_config_port, set_env_config_port, set_file_config_port]; rfl
  · rw [set_cmd_line_config_mode, set_env_config_mode, set_file_config_mode]; rfl
  · rw [set_cmd_line_config_root, set_env_config_root, set_file_config_root]; rfl
  · rw [set_cmd_line_config_index, set_env_config_index, set_file_config_index]; rfl
  · rw [set_cmd_line_config_nf, set_env_config_nf, set_file_config_nf]; rfl

/-!
## Token-level behaviour of the getopt loop
-/

/-- A token that does not start with `--` delivers no `optarg`. -/
theorem parseTokens_nonopt (tok : List Char) (rest : List (List Char))
    (h : tok.take 2 ≠ ['-', '-']) :
    parseTokens (tok :: rest) = parseTokens rest := by
  simp only [parseTokens]
  rw [if_neg h]

/-- A recognized long-option name is one of the five table entries. -/
theorem optChar?_cases (name : List Char) (h : (optChar? name).isSome) :
    name = ['p', 'o', 'r', 't'] ∨ name = ['m', 'o', 'd', 'e'] ∨
    name = ['r', 'o', 'o', 't', '-', 'd', 'i', 'r'] ∨
    name = ['i', 'n', 'd', 'e', 'x', '-', 'p', 'a', 'g', 'e'] ∨
    name = ['n', 'o', 't', '-', 'f', 'o', 'u', 'n', 'd', '-', 'p', 'a', 'g', 'e'] := by
  by_contra hc
  push_neg at hc
  obtain ⟨h1, h2, h3, h4, h5⟩ := hc
  simp [optChar?, h1, h2, h3, h4, h5] at h

/-- A recognized long option given without an attached `=value` delivers
`optarg == NULL` and is skipped. -/
theorem parseTokens_optname_noval (name : List Char) (rest : List (List Char))
    (hname : (optChar? name).isSome) :
    parseTokens (('-' :: '-' :: name) :: rest) = parseTokens rest := by
  rcases optChar?_cases name hname with h | h | h | h | h <;> subst h <;>
    simp [parseTokens, splitAtEq, optChar?]

/-- C2.  Fatal validation happens exactly on a bad final root directory:
after all four loaders, `get_config` terminates with a failure status and
a stderr diagnostic containing the offending path iff the resolved
`root_dir` fails the directory-existence check; otherwise it returns the
built record unchanged.  `validate_config` inspects no other field. -/
theorem claim_fatal_validation_iff (w : World) :
    ((∃ msg, get_config w = .error msg ∧
        ∃ pre suf, msg = pre ++ ((resolve w).root_dir ++ suf)) ↔
      w.dirOk (resolve w).root_dir = false) ∧
    (get_config w = .ok (resolve w) ↔ w.dirOk (resolve w).root_dir = true) ∧
    (∀ cfg cfg' : Config, cfg.root_dir = cfg'.root_dir →
      validate_config w.dirOk cfg = validate_config w.dirOk cfg') := by
  refine ⟨?_, ?_, ?_⟩
  · cases h : w.dirOk (resolve w).root_dir with
    | false =>
      simp only [get_config, validate_config, h, Bool.false_eq_true, if_false]
      constructor
      · intro _; trivial
      · intro _
        exact ⟨_, rfl, "Root directory '".data, "' does not exist.\n".data, rfl⟩
    | true =>
      simp [get_config, validate_config, h]
  · cases h : w.dirOk (resolve w).root_dir with
    | false => simp [get_config, validate_config, h]
    | true => simp [get_config, validate_config, h]
  · intro cfg cfg' hr
    simp [validate_config, hr]

/-- Witness for C2 at a concrete world: records agreeing on `root_dir`
validate identically, so no other field influences fatal validation. -/
theorem claim_fatal_validation_iff_witness :
    validate_config (fun _ => false) set_default_config =
      validate_config (fun _ => false) { set_default_config with port := 81 } :=
  (claim_fatal_validation_iff
      ⟨.error ⟨[], 0, []⟩, ⟨none, none, none, none, none⟩, (fun _ => false), []⟩).2.2
    set_default_config { set_default_config with port := 81 } rfl

/-- C5.  A missing or malformed configuration file is non-fatal and
frame-preserving: `set_file_config` emits the single diagnostic
`<file>:<line> - <message>`, releases the parser, and returns the record
exactly as it was; resolution then proceeds with the environment and CLI
layers on the untouched record. -/
theorem claim_file_error_non_fatal (e : FileError) (dirOk : List Char → Bool) (cfg : Config)
    (env : EnvData) (argv : List (List Char)) :
    set_file_config (.error e) dirOk cfg =
      ⟨cfg, [e.file ++ ':' :: (toString e.line).data ++ ' ' :: '-' :: ' ' :: (e.msg ++ ['\n'])],
        true⟩ ∧
    resolve ⟨.error e, env, dirOk, argv⟩ =
      set_cmd_line_config dirOk argv (set_env_config env dirOk set_default_config) :=
  ⟨rfl, rfl⟩

/-- C9.  Resolution is idempotent and deterministic within one process:
because `set_cmd_line_config` resets `optind` to 1 before scanning, the
result of `get_config` does not depend on the `optind` value a previous
invocation left behind, so two runs on identical inputs produce
field-for-field identical records. -/
theorem claim_resolution_idempotent (w : World) (o₁ o₂ : Nat) :
    (get_configO o₁ w).1 = (get_configO o₂ w).1 ∧
    (get_configO (get_configO o₁ w).2 w).1 = (get_configO o₁ w).1 ∧
    (get_configO o₁ w).1 = get_config w :=
  ⟨rfl, rfl, rfl⟩

/-- C10.  Attached-value-only CLI options: all five long options are
declared `optional_argument`, so a value is consumed only when attached
with `=`; when the value appears as a separate following token, the
option is delivered with `optarg == NULL` and skipped, the value token is
a non-option, and the field is left unchanged. -/
theorem claim_cli_separate_value_ignored (name v : List Char) (rest : List (List Char))
    (prog : List Char) (dirOk : List Char → Bool) (cfg : Config)
    (hname : (optChar? name).isSome) (hv : v.take 2 ≠ ['-', '-']) :
    parseTokens (('-' :: '-' :: name) :: v :: rest) = parseTokens rest ∧
    set_cmd_line_config dirOk (prog :: ('-' :: '-' :: name) :: v :: rest) cfg =
      (parseTokens rest).foldl (applyOpt dirOk) cfg := by
  have h₁ : parseTokens (('-' :: '-' :: name) :: v :: rest) = parseTokens rest := by
    rw [parseTokens_optname_noval name (v :: rest) hname, parseTokens_nonopt v rest hv]
  refine ⟨h₁, ?_⟩
  simp only [set_cmd_line_config, set_cmd_line_configO, List.drop_succ_cons, List.drop_zero]
  rw [h₁]

/-- Witness for C10 at `--port 80`: the separate `80` token is not
consumed and the record is left alone. -/
theorem claim_cli_separate_value_ignored_witness :
    parseTokens (('-' :: '-' :: ['p', 'o', 'r', 't']) :: ['8', '0'] :: []) =
      parseTokens [] ∧
    set_cmd_line_config (fun _ => true)
        (['x'] :: ('-' :: '-' :: ['p', 'o', 'r', 't']) :: ['8', '0'] :: []) set_default_config =
      (parseTokens []).foldl (applyOpt (fun _ => true)) set_default_config :=
  claim_cli_separate_value_ignored ['p', 'o', 'r', 't'] ['8', '0'] [] ['x']
    (fun _ => true) set_default_config (by decide) (by decide)

/-!
## Mode acceptance and port strictness
-/

/-- What the shared mode update stores, as a single conditional. -/
theorem modeFromString_mode_eq (s : List Char) (cfg : Config) :
    (modeFromString s cfg).mode =
      if s.headD '\x00' = 'p' ∨ s.headD '\x00' = 't' then tolowerC (s.headD '\x00')
      else cfg.mode := by
  simp only [modeFromString, is_valid_mode]
  split_ifs with h1 h2 <;> simp_all

/-- `modeCand` folded through `Option.getD`. -/
theorem modeCand_getD (s : List Char) (m : Char) :
    (modeCand s).getD m =
      if s.headD '\x00' = 'p' ∨ s.headD '\x00' = 't' then tolowerC (s.headD '\x00')
      else m := by
  simp only [modeCand, is_valid_mode]
  split_ifs with h1 h2 <;> simp_all

/-- C3 counterexample: the claim's case-insensitive acceptance fails on
the code.  `is_valid_mode` compares the first character against the
lowercase literals only, so the candidate "P" is rejected by the
environment loader and the mode stays at the default `'t'` instead of
becoming `'p'`. -/
theorem claim_mode_case_counterexample :
    is_valid_mode ['P'] = false ∧
    (set_env_config ⟨none, some ['P'], none, none, none⟩ (fun _ => false)
        set_default_config).mode = 't' ∧
    ¬ (set_env_config ⟨none, some ['P'], none, none, none⟩ (fun _ => false)
        set_default_config).mode = 'p' := by
  decide

/-- C3 (amended).  Mode acceptance is case-sensitive: in each of the
three loaders a mode candidate is accepted exactly when its first
character is exactly `'p'` or `'t'` (lowercase), and the stored value is
the `tolower`-ed first character — which on those accepted characters is
the first character itself. -/
theorem claim_mode_case_sensitive_normalization (s : List Char) :
    (∀ (p r i n : Option (List Char)) (dirOk : List Char → Bool) (cfg : Config),
      (set_env_config ⟨p, some s, r, i, n⟩ dirOk cfg).mode =
        if s.headD '\x00' = 'p' ∨ s.headD '\x00' = 't' then tolowerC (s.headD '\x00')
        else cfg.mode) ∧
    (∀ (p : Option Int) (r i n : Option (List Char)) (dirOk : List Char → Bool) (cfg : Config),
      (set_file_config (.ok ⟨p, some s, r, i, n⟩) dirOk cfg).cfg.mode =
        if s.headD '\x00' = 'p' ∨ s.headD '\x00' = 't' then tolowerC (s.headD '\x00')
        else cfg.mode) ∧
    (∀ (dirOk : List Char → Bool) (cfg : Config),
      (applyOpt dirOk cfg ('m', s)).mode =
        if s.headD '\x00' = 'p' ∨ s.headD '\x00' = 't' then tolowerC (s.headD '\x00')
        else cfg.mode) ∧
    tolowerC 'p' = 'p' ∧ tolowerC 't' = 't' := by
  refine ⟨?_, ?_, ?_, by decide, by decide⟩
  · intro p r i n dirOk cfg
    rw [set_env_config_mode]
    simp only [envValidMode]
    exact modeCand_getD s cfg.mode
  · intro p r i n dirOk cfg
    rw [set_file_config_mode]
    simp only [fileValidMode]
    exact modeCand_getD s cfg.mode
  · intro dirOk cfg
    have h : applyOpt dirOk cfg ('m', s) = modeFromString s cfg := rfl
    rw [h]
    exact modeFromString_mode_eq s cfg

/-- `portCand` folded through `Option.getD`. -/
theorem portCand_getD (s : List Char) (q : Int) :
    (portCand s).getD q =
      if 0 ≤ toInt32 (strtoul0 s).1 ∧ toInt32 (strtoul0 s).1 ≤ MAX_PORT ∧
          s ≠ [] ∧ (strtoul0 s).2 = []
      then toInt32 (strtoul0 s).1 else q := by
  simp only [portCand, is_valid_port, Bool.and_eq_true, decide_eq_true_eq, and_assoc]
  split_ifs with h1 <;> simp_all

/-- C4.  Numeric strictness of the environment / CLI port input: the port
field is updated exactly when the string is non-empty, `strtoul` consumed
the whole string, and the parsed value — after the C `(int)` cast — lies
in `[0, MAX_PORT]`; otherwise the candidate is discarded silently.
`"80abc"` and `""` are rejected, `"80"` and the base-prefixed `"0x50"`
are accepted (both parse to 80). -/
theorem claim_port_numeric_strictness :
    (∀ (s : List Char) (m r i n : Option (List Char)) (dirOk : List Char → Bool) (cfg : Config),
      (set_env_config ⟨some s, m, r, i, n⟩ dirOk cfg).port =
        if 0 ≤ toInt32 (strtoul0 s).1 ∧ toInt32 (strtoul0 s).1 ≤ MAX_PORT ∧
            s ≠ [] ∧ (strtoul0 s).2 = []
        then toInt32 (strtoul0 s).1 else cfg.port) ∧
    (∀ (s : List Char) (dirOk : List Char → Bool) (cfg : Config),
      (applyOpt dirOk cfg ('p', s)).port =
        if 0 ≤ toInt32 (strtoul0 s).1 ∧ toInt32 (strtoul0 s).1 ≤ MAX_PORT ∧
            s ≠ [] ∧ (strtoul0 s).2 = []
        then toInt32 (strtoul0 s).1 else cfg.port) ∧
    portCand ['8', '0', 'a', 'b', 'c'] = none ∧
    portCand [] = none ∧
    portCand ['8', '0'] = some 80 ∧
    portCand ['0', 'x', '5', '0'] = some 80 := by
  refine ⟨?_, ?_, by decide, by decide, by decide, by decide⟩
  · intro s m r i n dirOk cfg
    rw [set_env_config_port]
    simp only [envValidPort]
    exact portCand_getD s cfg.port
  · intro s dirOk cfg
    have h : applyOpt dirOk cfg ('p', s) = portFromString s cfg := rfl
    rw [h, portFromString_port]
    exact portCand_getD s cfg.port

/-!
## Preservation of the port/mode constraints
-/

/-- An accepted env/CLI port candidate is in range. -/
theorem portCand_range (s : List Char) (p : Int) (h : portCand s = some p) :
    0 ≤ p ∧ p ≤ MAX_PORT := by
  simp only [portCand] at h
  split_ifs at h with hc
  · obtain ⟨hv, -, -⟩ := hc
    cases h
    simpa [is_valid_port, Bool.and_eq_true, decide_eq_true_eq] using hv

/-- An accepted file-layer port candidate is in range. -/
theorem fileIntPortCand_range (p q : Int) (h : fileIntPortCand p = some q) :
    0 ≤ q ∧ q ≤ MAX_PORT := by
  simp only [fileIntPortCand] at h
  split_ifs at h with hc
  · cases h
    simpa [is_valid_port, Bool.and_eq_true, decide_eq_true_eq] using hc

/-- An accepted mode candidate is stored as `'p'` or `'t'`. -/
theorem modeCand_pt (s : List Char) (c : Char) (h : modeCand s = some c) :
    c = 'p' ∨ c = 't' := by
  simp only [modeCand, is_valid_mode] at h
  split_ifs at h with hc
  · cases h
    rcases (by simpa using hc : s.headD '\x00' = 'p' ∨ s.headD '\x00' = 't') with h1 | h1 <;>
      rw [h1]
    · left; decide
    · right; decide

theorem WF_portFromString (s : List Char) (cfg : Config) (h : WF cfg) :
    WF (portFromString s cfg) := by
  obtain ⟨h1, h2, h3⟩ := h
  refine ⟨?_, ?_, ?_⟩
  · rw [portFromString_port]
    cases hc : portCand s with
    | none => simpa using h1
    | some p => simpa using (portCand_range s p hc).1
  · rw [portFromString_port]
    cases hc : portCand s with
    | none => simpa using h2
    | some p => simpa using (portCand_range s p hc).2
  · rw [portFromString_mode]; exact h3

theorem WF_modeFromString (s : List Char) (cfg : Config) (h : WF cfg) :
    WF (modeFromString s cfg) := by
  obtain ⟨h1, h2, h3⟩ := h
  refine ⟨?_, ?_, ?_⟩
  · rw [modeFromString_port]; exact h1
  · rw [modeFromString_port]; exact h2
  · rw [modeFromString_mode]
    cases hc : modeCand s with
    | none => simpa using h3
    | some c => simpa using modeCand_pt s c hc

theorem WF_rootFromString (dirOk : List Char → Bool) (s : List Char) (cfg : Config)
    (h : WF cfg) : WF (rootFromString dirOk s cfg) := by
  obtain ⟨h1, h2, h3⟩ := h
  exact ⟨by rw [rootFromString_port]; exact h1, by rw [rootFromString_port]; exact h2,
    by rw [rootFromString_mode]; exact h3⟩

theorem WF_filePortSet (p : Int) (cfg : Config) (h : WF cfg) : WF (filePortSet p cfg) := by
  obtain ⟨h1, h2, h3⟩ := h
  refine ⟨?_, ?_, ?_⟩
  · rw [filePortSet_port]
    cases hc : fileIntPortCand p with
    | none => simpa using h1
    | some q => simpa using (fileIntPortCand_range p q hc).1
  · rw [filePortSet_port]
    cases hc : fileIntPortCand p with
    | none => simpa using h2
    | some q => simpa using (fileIntPortCand_range p q hc).2
  · rw [filePortSet_mode]; exact h3

theorem WF_setIndexPage (s : List Char) (cfg : Config) (h : WF cfg) :
    WF (setIndexPage s cfg) := h

theorem WF_setNotFoundPage (s : List Char) (cfg : Config) (h : WF cfg) :
    WF (setNotFoundPage s cfg) := h

theorem WF_onSome (o : Option α) (f : α → Config → Config) (cfg : Config)
    (hf : ∀ a c, WF c → WF (f a c)) (h : WF cfg) : WF (onSome o f cfg) := by
  cases o with
  | none => exact h
  | some a => exact hf a cfg h

theorem WF_set_file_config (fr : FileResult) (dirOk : List Char → Bool) (cfg : Config)
    (h : WF cfg) : WF (set_file_config fr dirOk cfg).cfg := by
  cases fr with
  | error e => exact h
  | ok d =>
    exact WF_onSome _ _ _ WF_setNotFoundPage
      (WF_onSome _ _ _ WF_setIndexPage
        (WF_onSome _ _ _ (WF_rootFromString dirOk)
          (WF_onSome _ _ _ WF_modeFromString
            (WF_onSome _ _ _ WF_filePortSet h))))

theorem WF_set_env_config (e : EnvData) (dirOk : List Char → Bool) (cfg : Config)
    (h : WF cfg) : WF (set_env_config e dirOk cfg) :=
  WF_onSome _ _ _ WF_setNotFoundPage
    (WF_onSome _ _ _ WF_setIndexPage
      (WF_onSome _ _ _ (WF_rootFromString dirOk)
        (WF_onSome _ _ _ WF_modeFromString
          (WF_onSome _ _ _ WF_portFromString h))))

theorem WF_applyOpt (dirOk : List Char → Bool) (cfg : Config) (o : Char × List Char)
    (h : WF cfg) : WF (applyOpt dirOk cfg o) := by
  rcases o with ⟨c, v⟩
  simp only [applyOpt]
  split_ifs
  · exact WF_portFromString v cfg h
  · exact WF_modeFromString v cfg h
  · exact WF_rootFromString dirOk v cfg h
  · exact WF_setIndexPage v cfg h
  · exact WF_setNotFoundPage v cfg h
  · exact h

theorem WF_foldl_applyOpt (dirOk : List Char → Bool) :
    ∀ (opts : List (Char × List Char)) (cfg : Config),
      WF cfg → WF (opts.foldl (applyOpt dirOk) cfg) := by
  intro opts
  induction opts with
  | nil => intro cfg h; exact h
  | cons o rest ih =>
    intro cfg h
    simp only [List.foldl_cons]
    exact ih _ (WF_applyOpt dirOk cfg o h)

theorem WF_set_cmd_line_config (dirOk : List Char → Bool) (argv : List (List Char))
    (cfg : Config) (h : WF cfg) : WF (set_cmd_line_config dirOk argv cfg) :=
  WF_foldl_applyOpt dirOk _ cfg h

/-- C6.  Port/mode well-formedness invariant: the defaults satisfy
`0 ≤ port ≤ MAX_PORT` and `mode ∈ \x7b'p', 't'\x7d`, every loader stage
preserves this, and so does every mutation operation of the external
editor (modelled from the spec, §6): each stage either keeps a field or
replaces it with a value satisfying its constraint. -/
theorem claim_port_mode_invariant :
    WF set_default_config ∧
    (∀ (fr : FileResult) (dirOk : List Char → Bool) (cfg : Config),
      WF cfg → WF (set_file_config fr dirOk cfg).cfg) ∧
    (∀ (e : EnvData) (dirOk : List Char → Bool) (cfg : Config),
      WF cfg → WF (set_env_config e dirOk cfg)) ∧
    (∀ (dirOk : List Char → Bool) (argv : List (List Char)) (cfg : Config),
      WF cfg → WF (set_cmd_line_config dirOk argv cfg)) ∧
    (∀ (s : List Char) (cfg : Config), WF cfg → WF (editor_set_port s cfg)) ∧
    (∀ (s : List Char) (cfg : Config), WF cfg → WF (editor_set_mode s cfg)) ∧
    (∀ (dirOk : List Char → Bool) (s : List Char) (cfg : Config),
      WF cfg → WF (editor_set_root_dir dirOk s cfg)) ∧
    (∀ (s : List Char) (cfg : Config), WF cfg → WF (editor_set_index_page s cfg)) ∧
    (∀ (s : List Char) (cfg : Config), WF cfg → WF (editor_set_not_found_page s cfg)) :=
  ⟨by decide, WF_set_file_config, WF_set_env_config, WF_set_cmd_line_config,
    WF_portFromString, WF_modeFromString, WF_rootFromString,
    WF_setIndexPage, WF_setNotFoundPage⟩

/-- Witness for C6: the invariant holds concretely after the environment
loader receives an out-of-range port and an invalid mode on top of the
defaults. -/
theorem claim_port_mode_invariant_witness :
    WF (set_env_config ⟨some ['9', '9', '9', '9', '9'], some ['x'], none, none, none⟩
      (fun _ => false) set_default_config) :=
  claim_port_mode_invariant.2.2.1 _ _ _ (by decide)

/-- C7.  Loader totality: each loader is a total function of the record
and the injected world (in this embedding all four are Lean functions,
hence terminate on every input), each preserves well-formedness of the
fully-populated record, and a CLI option present without an attached
value is skipped rather than failing or clearing the field. -/
theorem claim_loader_totality :
    WF set_default_config ∧
    (∀ (fr : FileResult) (dirOk : List Char → Bool) (cfg : Config),
      WF cfg → WF (set_file_config fr dirOk cfg).cfg) ∧
    (∀ (e : EnvData) (dirOk : List Char → Bool) (cfg : Config),
      WF cfg → WF (set_env_config e dirOk cfg)) ∧
    (∀ (dirOk : List Char → Bool) (argv : List (List Char)) (cfg : Config),
      WF cfg → WF (set_cmd_line_config dirOk argv cfg)) ∧
    (∀ (name : List Char) (rest : List (List Char)), (optChar? name).isSome →
      parseTokens (('-' :: '-' :: name) :: rest) = parseTokens rest) ∧
    (∀ (name prog : List Char) (rest : List (List Char)) (dirOk : List Char → Bool)
        (cfg : Config), (optChar? name).isSome →
      set_cmd_line_config dirOk (prog :: ('-' :: '-' :: name) :: rest) cfg =
        (parseTokens rest).foldl (applyOpt dirOk) cfg) := by
  refine ⟨by decide, WF_set_file_config, WF_set_env_config, WF_set_cmd_line_config,
    parseTokens_optname_noval, ?_⟩
  intro name prog rest dirOk cfg hname
  simp only [set_cmd_line_config, set_cmd_line_configO, List.drop_succ_cons, List.drop_zero]
  rw [parseTokens_optname_noval name rest hname]

/-- Witness for C7: a bare `--port` (no attached value) is skipped, and
well-formedness survives a CLI scan that supplies an invalid mode. -/
theorem claim_loader_totality_witness :
    parseTokens [('-' :: '-' :: ['p', 'o', 'r', 't'])] = parseTokens [] ∧
    WF (set_cmd_line_config (fun _ => true)
      [['x'], ['-', '-', 'm', 'o', 'd', 'e', '=', 'q']] set_default_config) :=
  ⟨claim_loader_totality.2.2.2.2.1 ['p', 'o', 'r', 't'] [] (by decide),
   claim_loader_totality.2.2.2.1 (fun _ => true) _ _ (by decide)⟩

/-!
## Ownership discipline of the text fields
-/

theorem HInv_portFromStringH (s : List Char) (cfg : OCfg) (h : Heap) (hI : HInv cfg h) :
    HInv (portFromStringH s cfg) h := by
  simp only [portFromStringH]
  split_ifs <;> exact hI

theorem HInv_modeFromStringH (s : List Char) (cfg : OCfg) (h : Heap) (hI : HInv cfg h) :
    HInv (modeFromStringH s cfg) h := by
  simp only [modeFromStringH]
  split_ifs <;> exact hI

theorem HInv_filePortSetH (p : Int) (cfg : OCfg) (h : Heap) (hI : HInv cfg h) :
    HInv (filePortSetH p cfg) h := by
  simp only [filePortSetH]
  split_ifs <;> exact hI

/-- Bound and freshness facts shared by the three override lemmas. -/
theorem replaceOwned_fresh (old : Own) (s : List Char) (h : Heap)
    (hb : ∀ x ∈ h.allocated, x < h.next) (hn : h.allocated.Nodup) :
    (∀ x ∈ ((replaceOwned old s h).2).allocated, x < ((replaceOwned old s h).2).next) ∧
    ((replaceOwned old s h).2).allocated.Nodup := by
  simp only [replaceOwned, strdupH, freeH]
  constructor
  · intro x hx
    rcases Multiset.mem_cons.mp hx with rfl | hx'
    · exact Nat.lt_succ_self _
    · exact Nat.lt_succ_of_lt (hb x hx')
  · rw [Multiset.nodup_cons]
    exact ⟨fun hmem => absurd (hb _ hmem) (lt_irrefl _), hn⟩

theorem HInv_replace_root (cfg : OCfg) (h : Heap) (s : List Char) (hI : HInv cfg h) :
    HInv { cfg with root_dir := (replaceOwned cfg.root_dir s h).1 }
      ((replaceOwned cfg.root_dir s h).2) := by
  obtain ⟨hb, hn, he⟩ := hI
  obtain ⟨hb', hn'⟩ := replaceOwned_fresh cfg.root_dir s h hb hn
  refine ⟨hb', hn', ?_⟩
  simp only [replaceOwned, strdupH, freeH]
  rw [he]
  simp only [← Multiset.singleton_add]
  abel

theorem HInv_replace_index (cfg : OCfg) (h : Heap) (s : List Char) (hI : HInv cfg h) :
    HInv { cfg with index_page := (replaceOwned cfg.index_page s h).1 }
      ((replaceOwned cfg.index_page s h).2) := by
  obtain ⟨hb, hn, he⟩ := hI
  obtain ⟨hb', hn'⟩ := replaceOwned_fresh cfg.index_page s h hb hn
  refine ⟨hb', hn', ?_⟩
  simp only [replaceOwned, strdupH, freeH]
  rw [he]
  simp only [← Multiset.singleton_add]
  abel

theorem HInv_replace_nf (cfg : OCfg) (h : Heap) (s : List Char) (hI : HInv cfg h) :
    HInv { cfg with not_found_page := (replaceOwned cfg.not_found_page s h).1 }
      ((replaceOwned cfg.not_found_page s h).2) := by
  obtain ⟨hb, hn, he⟩ := hI
  obtain ⟨hb', hn'⟩ := replaceOwned_fresh cfg.not_found_page s h hb hn
  refine ⟨hb', hn', ?_⟩
  simp only [replaceOwned, strdupH, freeH]
  rw [he]
  simp only [← Multiset.singleton_add]
  abel

theorem HInv_rootFromStringH (dirOk : List Char → Bool) (s : List Char) (cfg : OCfg)
    (h : Heap) (hI : HInv cfg h) :
    HInv (rootFromStringH dirOk s cfg h).1 (rootFromStringH dirOk s cfg h).2 := by
  simp only [rootFromStringH]
  split_ifs
  · exact HInv_replace_root cfg h s hI
  · exact hI

theorem HInv_setIndexPageH (s : List Char) (cfg : OCfg) (h : Heap) (hI : HInv cfg h) :
    HInv (setIndexPageH s cfg h).1 (setIndexPageH s cfg h).2 :=
  HInv_replace_index cfg h s hI

theorem HInv_setNotFoundPageH (s : List Char) (cfg : OCfg) (h : Heap) (hI : HInv cfg h) :
    HInv (setNotFoundPageH s cfg h).1 (setNotFoundPageH s cfg h).2 :=
  HInv_replace_nf cfg h s hI

theorem HInv_onSomeH (o : Option α) (f : α → OCfg → Heap → OCfg × Heap) (cfg : OCfg)
    (h : Heap) (hf : ∀ a c hh, HInv c hh → HInv (f a c hh).1 (f a c hh).2)
    (hI : HInv cfg h) : HInv (onSomeH o f cfg h).1 (onSomeH o f cfg h).2 := by
  cases o with
  | none => exact hI
  | some a => exact hf a cfg h hI

theorem HInv_set_file_configH (fr : FileResult) (dirOk : List Char → Bool) (cfg : OCfg)
    (h : Heap) (hI : HInv cfg h) :
    HInv (set_file_configH fr dirOk cfg h).1 (set_file_configH fr dirOk cfg h).2 := by
  cases fr with
  | error e => exact hI
  | ok d =>
    exact HInv_onSomeH _ _ _ _ (fun a c hh hi => HInv_setNotFoundPageH a c hh hi)
      (HInv_onSomeH _ _ _ _ (fun a c hh hi => HInv_setIndexPageH a c hh hi)
        (HInv_onSomeH _ _ _ _ (fun a c hh hi => HInv_rootFromStringH dirOk a c hh hi)
          (HInv_onSomeH _ _ _ _ (fun a c hh hi => HInv_modeFromStringH a c hh hi)
            (HInv_onSomeH _ _ _ _ (fun a c hh hi => HInv_filePortSetH a c hh hi) hI))))

theorem HInv_set_env_configH (env : EnvData) (dirOk : List Char → Bool) (cfg : OCfg)
    (h : Heap) (hI : HInv cfg h) :
    HInv (set_env_configH env dirOk cfg h).1 (set_env_configH env dirOk cfg h).2 :=
  HInv_onSomeH _ _ _ _ (fun a c hh hi => HInv_setNotFoundPageH a c hh hi)
    (HInv_onSomeH _ _ _ _ (fun a c hh hi => HInv_setIndexPageH a c hh hi)
      (HInv_onSomeH _ _ _ _ (fun a c hh hi => HInv_rootFromStringH dirOk a c hh hi)
        (HInv_onSomeH _ _ _ _ (fun a c hh hi => HInv_modeFromStringH a c hh hi)
          (HInv_onSomeH _ _ _ _ (fun a c hh hi => HInv_portFromStringH a c hh hi) hI))))

theorem HInv_applyOptH (dirOk : List Char → Bool) (p : OCfg × Heap) (o : Char × List Char)
    (hI : HInv p.1 p.2) : HInv (applyOptH dirOk p o).1 (applyOptH dirOk p o).2 := by
  simp only [applyOptH]
  split_ifs
  · exact HInv_portFromStringH o.2 p.1 p.2 hI
  · exact HInv_modeFromStringH o.2 p.1 p.2 hI
  · exact HInv_rootFromStringH dirOk o.2 p.1 p.2 hI
  · exact HInv_setIndexPageH o.2 p.1 p.2 hI
  · exact HInv_setNotFoundPageH o.2 p.1 p.2 hI
  · exact hI

theorem HInv_foldl_applyOptH (dirOk : List Char → Bool) :
    ∀ (opts : List (Char × List Char)) (p : OCfg × Heap), HInv p.1 p.2 →
      HInv ((opts.foldl (applyOptH dirOk) p).1) ((opts.foldl (applyOptH dirOk) p).2) := by
  intro opts
  induction opts with
  | nil => intro p hI; exact hI
  | cons o rest ih =>
    intro p hI
    simp only [List.foldl_cons]
    exact ih _ (HInv_applyOptH dirOk p o hI)

theorem HInv_set_cmd_line_configH (dirOk : List Char → Bool) (argv : List (List Char))
    (cfg : OCfg) (h : Heap) (hI : HInv cfg h) :
    HInv (set_cmd_line_configH dirOk argv cfg h).1 (set_cmd_line_configH dirOk argv cfg h).2 :=
  HInv_foldl_applyOptH dirOk _ (cfg, h) hI

/-- On a balanced heap (everything allocated so far has been freed), the
three `strdup`s of `set_default_config` establish the invariant. -/
theorem HInv_set_default_configH (h : Heap)
    (hb : ∀ x ∈ h.allocated, x < h.next) (hn : h.allocated.Nodup)
    (he : h.allocated = h.freed) :
    HInv (set_default_configH h).1 (set_default_configH h).2 := by
  simp only [set_default_configH, strdupH, HInv]
  refine ⟨?_, ?_, ?_⟩
  · intro x hx
    rcases Multiset.mem_cons.mp hx with rfl | hx'
    · omega
    rcases Multiset.mem_cons.mp hx' with rfl | hx''
    · omega
    rcases Multiset.mem_cons.mp hx'' with rfl | hx'''
    · omega
    · have := hb x hx'''; omega
  · rw [Multiset.nodup_cons, Multiset.nodup_cons, Multiset.nodup_cons]
    refine ⟨?_, ?_, ?_, hn⟩
    · intro hmem
      rcases Multiset.mem_cons.mp hmem with h' | hmem'
      · omega
      rcases Multiset.mem_cons.mp hmem' with h' | hmem''
      · omega
      · have := hb _ hmem''; omega
    · intro hmem
      rcases Multiset.mem_cons.mp hmem with h' | hmem'
      · omega
      · have := hb _ hmem'; omega
    · intro hmem
      have := hb _ hmem; omega
  · rw [he]
    simp only [← Multiset.singleton_add]
    abel

/-- Consequences of the invariant: the three text fields never alias, the
live allocations are exactly one per text field, and no id was ever freed
twice. -/
theorem HInv_consequences (cfg : OCfg) (h : Heap) (hI : HInv cfg h) :
    cfg.root_dir.id ≠ cfg.index_page.id ∧ cfg.root_dir.id ≠ cfg.not_found_page.id ∧
    cfg.index_page.id ≠ cfg.not_found_page.id ∧
    h.allocated - h.freed =
      cfg.root_dir.id ::ₘ cfg.index_page.id ::ₘ cfg.not_found_page.id ::ₘ 0 ∧
    h.freed.Nodup := by
  obtain ⟨hb, hn, he⟩ := hI
  rw [he] at hn
  have h1 := Multiset.nodup_cons.mp hn
  have h2 := Multiset.nodup_cons.mp h1.2
  have h3 := Multiset.nodup_cons.mp h2.2
  refine ⟨?_, ?_, ?_, ?_, h3.2⟩
  · intro hEq
    exact h1.1 (by rw [hEq]; exact Multiset.mem_cons_self _ _)
  · intro hEq
    exact h1.1 (by rw [hEq]; exact Multiset.mem_cons.mpr (Or.inr (Multiset.mem_cons_self _ _)))
  · intro hEq
    exact h2.1 (by rw [hEq]; exact Multiset.mem_cons_self _ _)
  · rw [he]
    have hsplit : cfg.root_dir.id ::ₘ cfg.index_page.id ::ₘ cfg.not_found_page.id ::ₘ h.freed =
        (cfg.root_dir.id ::ₘ cfg.index_page.id ::ₘ cfg.not_found_page.id ::ₘ 0) + h.freed := by
      simp [Multiset.cons_add]
    rw [hsplit, add_tsub_cancel_right]

/-- `destroy_config` frees each owned text field exactly once, after
which every allocation ever made has been freed exactly once. -/
theorem HInv_destroy (cfg : OCfg) (h : Heap) (hI : HInv cfg h) :
    (destroy_configH cfg h).allocated = (destroy_configH cfg h).freed ∧
    (destroy_configH cfg h).freed.Nodup := by
  obtain ⟨hb, hn, he⟩ := hI
  have heq : cfg.index_page.id ::ₘ cfg.not_found_page.id ::ₘ cfg.root_dir.id ::ₘ h.freed =
      h.allocated := by
    rw [he]
    simp only [← Multiset.singleton_add]
    abel
  constructor
  · simp only [destroy_configH, freeH]
    rw [heq]
  · simp only [destroy_configH, freeH]
    rw [heq]
    exact hn

/-- C8.  Text-field ownership discipline: starting from a balanced heap,
`set_default_config` leaves each text field holding a fresh owned
allocation; every loader stage preserves the invariant that the ids ever
allocated are exactly the ids ever freed plus the three distinct ids held
by the fields (so each override frees the previous copy exactly once
before storing a fresh one, no two fields alias one allocation, and at
most one live copy per field exists at any point); and `destroy_config`
frees each owned text field exactly once, leaving every allocation freed
exactly once. -/
theorem claim_text_field_ownership :
    (∀ h : Heap, (∀ x ∈ h.allocated, x < h.next) → h.allocated.Nodup →
      h.allocated = h.freed →
      HInv (set_default_configH h).1 (set_default_configH h).2) ∧
    (∀ (fr : FileResult) (dirOk : List Char → Bool) (cfg : OCfg) (h : Heap), HInv cfg h →
      HInv (set_file_configH fr dirOk cfg h).1 (set_file_configH fr dirOk cfg h).2) ∧
    (∀ (env : EnvData) (dirOk : List Char → Bool) (cfg : OCfg) (h : Heap), HInv cfg h →
      HInv (set_env_configH env dirOk cfg h).1 (set_env_configH env dirOk cfg h).2) ∧
    (∀ (dirOk : List Char → Bool) (argv : List (List Char)) (cfg : OCfg) (h : Heap),
      HInv cfg h →
      HInv (set_cmd_line_configH dirOk argv cfg h).1 (set_cmd_line_configH dirOk argv cfg h).2) ∧
    (∀ (cfg : OCfg) (h : Heap), HInv cfg h →
      cfg.root_dir.id ≠ cfg.index_page.id ∧ cfg.root_dir.id ≠ cfg.not_found_page.id ∧
      cfg.index_page.id ≠ cfg.not_found_page.id ∧
      h.allocated - h.freed =
        cfg.root_dir.id ::ₘ cfg.index_page.id ::ₘ cfg.not_found_page.id ::ₘ 0 ∧
      h.freed.Nodup) ∧
    (∀ (cfg : OCfg) (h : Heap), HInv cfg h →
      (destroy_configH cfg h).allocated = (destroy_configH cfg h).freed ∧
      (destroy_configH cfg h).freed.Nodup) :=
  ⟨HInv_set_default_configH, HInv_set_file_configH, HInv_set_env_configH,
    HInv_set_cmd_line_configH, HInv_consequences, HInv_destroy⟩

/-- Witness for C8: from the empty heap, after `set_default_config` the
invariant holds concretely, and destroying the record frees everything
exactly once. -/
theorem claim_text_field_ownership_witness :
    HInv (set_default_configH emptyHeap).1 (set_default_configH emptyHeap).2 ∧
    (destroy_configH (set_default_configH emptyHeap).1
        (set_default_configH emptyHeap).2).allocated =
      (destroy_configH (set_default_configH emptyHeap).1
        (set_default_configH emptyHeap).2).freed :=
  ⟨claim_text_field_ownership.1 emptyHeap (by decide) (by decide) (by decide),
   (claim_text_field_ownership.2.2.2.2.2 (set_default_configH emptyHeap).1
      (set_default_configH emptyHeap).2 (by decide)).1⟩

end HttpConfig
